import Mathlib

/-!
Verification of the batch fetch controller in src/audio_lib.py
(class BulkAudioDownloader), via a shallow embedding.

The embedding models:
  - manifest items (class of dicts with optional string fields) as the
    structure Track, where a missing key is None;
  - the filesystem as an association list from path strings to file sizes
    in bytes;
  - the persisted history file (download_history.json) as abstract content:
    absent, unparseable, or a parsed JSON object that may or may not carry
    the downloaded_ids key;
  - the network as an oracle: each per-item retrieval either raises before
    the destination file is opened, raises after the file was created with
    some bytes already written, or completes writing a given number of
    bytes; the manifest fetch either succeeds with a parsed body or raises;
  - Python exceptions as the error side of Except, with the catch-all
    handlers of the source reflected as matches on that error side;
  - the trace of per-item network requests as a list of track ids appended
    in order (netCalls), so that frame claims about "zero network calls"
    are statable.
-/

deriving instance DecidableEq for Except

namespace AudioLib

/-- A manifest item. Each field mirrors a dict key read via track.get;
a missing key is none, and the .getD defaults below mirror the Python
defaults at each use site. -/
structure Track where
  id : Option String
  name : Option String
  artist : Option String
  genre : Option String
  mood : Option String
deriving DecidableEq, Repr

/-- Content of the persisted history file download_history.json:
absent (path does not exist), corrupt (json.load raises), or a parsed
JSON object whose downloaded_ids key is missing (none) or holds a list
of id strings. -/
inductive HistFile where
  | absent
  | corrupt
  | json (ids : Option (List String))
deriving DecidableEq, Repr

/-- Outcome of one per-item network retrieval (the session.get calls plus
the chunked write loop in download_track):
raiseBeforeOpen: an exception before open(filepath) creates the file;
raiseMidWrite n: an exception after the file was created, with n bytes
already written to it;
content n: the download loop completes having written n bytes. -/
inductive NetOutcome where
  | raiseBeforeOpen
  | raiseMidWrite (bytes : Nat)
  | content (bytes : Nat)
deriving DecidableEq, Repr

/-- Outcome of the one manifest fetch (requests.get + raise_for_status +
response.json() in fetch_all_tracks): failure covers timeout, non-2xx and
a malformed body, all of which raise; success carries the parsed body,
whose top-level key all may be missing (none). -/
inductive ManifestOutcome where
  | failure
  | success (all : Option (List Track))
deriving DecidableEq, Repr

/-- State threaded through the controller: the in-memory completed-set
self.downloaded_ids, the filesystem (path to size in bytes), the history
file content, and the trace of per-item network requests issued so far. -/
structure St where
  downloaded_ids : List String
  files : List (String × Nat)
  history : HistFile
  netCalls : List String
deriving DecidableEq, Repr

/-- Result of run: no tracks fetched, everything already downloaded,
a completed batch with its success and failure counts, or an exception
caught by the outer handler. -/
inductive RunResult where
  | noTracks
  | allDone
  | completed (successful failed : Nat)
  | errorCaught
deriving DecidableEq, Repr

/-! Filesystem primitives over the association list. -/

/-- Size of the file at path p, none when it does not exist. -/
def fsGet (files : List (String × Nat)) (p : String) : Option Nat :=
  (files.find? fun q => q.1 = p).map (·.2)

/-- Path.exists(). -/
def fsExists (files : List (String × Nat)) (p : String) : Bool :=
  (fsGet files p).isSome

/-- stat().st_size of an existing file (callers guard on fsExists). -/
def fsSize (files : List (String × Nat)) (p : String) : Nat :=
  (fsGet files p).getD 0

/-- Create or overwrite the file at p with n bytes. -/
def fsSet (files : List (String × Nat)) (p : String) (n : Nat) :
    List (String × Nat) :=
  (p, n) :: files.filter fun q => q.1 ≠ p

/-- Path.unlink(). -/
def fsDel (files : List (String × Nat)) (p : String) : List (String × Nat) :=
  files.filter fun q => q.1 ≠ p

/-! String helpers of the source. -/

/-- The character class of the regex in get_safe_filename and
create_category_folder. -/
def specialChars : List Char := ['<', '>', ':', '"', '/', '\\', '|', '?', '*']

/-- The re.sub call replacing each special character by an underscore. -/
def replace_special (s : String) : String :=
  String.mk (s.data.map fun c => if c ∈ specialChars then '_' else c)

/-- Python " ".join(s.split()): split on whitespace runs and rejoin with
single spaces, dropping leading and trailing whitespace. -/
def collapse_spaces (s : String) : String :=
  String.intercalate " "
    (((s.data.splitOnP Char.isWhitespace).filter fun w => w ≠ []).map String.mk)

/-- Python str.lower, character by character. -/
def str_toLower (s : String) : String := String.mk (s.data.map Char.toLower)

/-- get_safe_filename: clean artist and title, truncate each to 50
characters, collapse spaces, and build the .mp3 filename; the track_id
argument is accepted and unused, as in the source. -/
def get_safe_filename (artist title track_id : String) : String :=
  let clean_artist := collapse_spaces (String.mk ((replace_special artist).data.take 50))
  let clean_title := collapse_spaces (String.mk ((replace_special title).data.take 50))
  if clean_artist ≠ "" ∧ clean_artist ≠ "Unknown" then
    clean_artist ++ " - " ++ clean_title ++ ".mp3"
  else
    clean_title ++ ".mp3"

/-- create_category_folder reduced to its path computation: empty category
falls back to uncategorized, special characters become underscores, spaces
become underscores, the result is lower-cased and placed under the base
directory. The mkdir side effect creates no file, so it is not modelled. -/
def create_category_folder (category : String) : String :=
  let category := if category = "" then "uncategorized" else category
  let category := replace_special category
  let category := String.mk (category.data.map fun c => if c = ' ' then '_' else c)
  "youtube_music/" ++ str_toLower category

/-- Lines 113-119 of download_track: genre if non-empty, else mood, else
the literal uncategorized. -/
def resolve_category (track : Track) : String :=
  let genre := track.genre.getD ""
  let mood := track.mood.getD ""
  let category := if genre ≠ "" then genre else mood
  if category = "" then "uncategorized" else category

/-- Destination path of a track: category folder plus safe filename. -/
def track_filepath (track : Track) : String :=
  create_category_folder (resolve_category track) ++ "/" ++
    get_safe_filename (track.artist.getD "Unknown Artist")
      (track.name.getD "Unknown Track") (track.id.getD "")

/-- filepath.with_suffix applied to our generated paths, which always end
in .mp3: drop the four suffix characters and append .json. -/
def metadata_path (filepath : String) : String :=
  String.mk (filepath.data.take (filepath.data.length - 4)) ++ ".json"

/-! Controller operations. -/

/-- load_downloaded_ids: absent file or parse failure yields the empty
set; a parsed object yields set(data.get(downloaded_ids-key, [])). -/
def load_downloaded_ids : HistFile → List String
  | .absent => []
  | .corrupt => []
  | .json ids => ids.getD []

/-- Python set.add on the list representation of the set. -/
def addId (ids : List String) (i : String) : List String :=
  if i ∈ ids then ids else ids ++ [i]

/-- Body of save_downloaded_id: the in-memory insertion happens first,
then the history write, which raises (error side, carrying the state with
the insertion already done) when the write fails. -/
def save_downloaded_id_body (writeOk : Bool) (st : St) (track_id : String) :
    Except St St :=
  let ids := addId st.downloaded_ids track_id
  let st1 := { st with downloaded_ids := ids }
  if writeOk then .ok { st1 with history := .json (some ids) }
  else .error st1

/-- save_downloaded_id: the try/except around the write swallows the
error, so the call always returns the state with the insertion done. -/
def save_downloaded_id (writeOk : Bool) (st : St) (track_id : String) : St :=
  match save_downloaded_id_body writeOk st track_id with
  | .ok s => s
  | .error s => s

/-- save_track_metadata: writes the sidecar JSON next to the artifact, or
does nothing when the write raises (its own try/except swallows the
error). The sidecar content size is abstracted to one byte. -/
def save_track_metadata (metaOk : Bool) (st : St) (filepath : String) : St :=
  if metaOk then { st with files := fsSet st.files (metadata_path filepath) 1 }
  else st

/-- Body of download_track (the contents of its try block). The error
side carries the state at the moment the exception is raised, including
any partially written file. -/
def download_track_body (net : Track → NetOutcome) (writeOk metaOk : Bool)
    (st : St) (track : Track) : Except St (Bool × St) :=
  let track_id := track.id.getD ""
  if track_id = "" then .ok (false, st)
  else if track_id ∈ st.downloaded_ids then .ok (true, st)
  else
    let filepath := track_filepath track
    if fsExists st.files filepath then .ok (true, save_downloaded_id writeOk st track_id)
    else
      let st1 : St := { st with netCalls := st.netCalls ++ [track_id] }
      match net track with
      | .raiseBeforeOpen => .error st1
      | .raiseMidWrite n => .error { st1 with files := fsSet st1.files filepath n }
      | .content n =>
        let st2 : St := { st1 with files := fsSet st1.files filepath n }
        if fsExists st2.files filepath ∧ 0 < fsSize st2.files filepath then
          let st3 := save_track_metadata metaOk st2 filepath
          .ok (true, save_downloaded_id writeOk st3 track_id)
        else
          let st3 := if fsExists st2.files filepath
            then { st2 with files := fsDel st2.files filepath } else st2
          .ok (false, st3)

/-- download_track: the catch-all except converts every raised error into
the return value false, keeping the state as it was when the exception
was raised. The Except result type records that, at this boundary, an
exception could in principle still propagate. -/
def download_track (net : Track → NetOutcome) (writeOk metaOk : Bool)
    (st : St) (track : Track) : Except St (Bool × St) :=
  match download_track_body net writeOk metaOk st track with
  | .ok r => .ok r
  | .error s => .ok (false, s)

/-- Loop of download_batch with the success and failure accumulators; an
exception raised by download_track would propagate to the caller. -/
def download_batch_go (net : Track → NetOutcome) (writeOk metaOk : Bool) :
    List Track → St → Nat → Nat → Except St ((Nat × Nat) × St)
  | [], st, successful, failed => .ok ((successful, failed), st)
  | t :: ts, st, successful, failed =>
    match download_track net writeOk metaOk st t with
    | .ok (true, st1) => download_batch_go net writeOk metaOk ts st1 (successful + 1) failed
    | .ok (false, st1) => download_batch_go net writeOk metaOk ts st1 successful (failed + 1)
    | .error s => .error s

/-- download_batch: drop start_from leading tracks when positive, then
run the loop; returns the (successful, failed) counts and final state. -/
def download_batch (net : Track → NetOutcome) (writeOk metaOk : Bool)
    (tracks : List Track) (start_from : Nat) (st : St) :
    Except St ((Nat × Nat) × St) :=
  let tracks := if 0 < start_from then tracks.drop start_from else tracks
  download_batch_go net writeOk metaOk tracks st 0 0

/-- fetch_all_tracks: the try/except returns the empty list on any raise;
on success the list is data.get(all-key, []). -/
def fetch_all_tracks : ManifestOutcome → List Track
  | .failure => []
  | .success all => all.getD []

/-- Body of run (the contents of its try block): fetch the manifest, stop
with noTracks when empty, apply the limit slice (Python if limit: treats a
limit of zero like None), compute the resume offset start_from (which the
source never passes on), filter the manifest by completed-set membership,
stop with allDone when nothing is new, and otherwise call download_batch
with the default start offset zero. -/
def run_body (m : ManifestOutcome) (net : Track → NetOutcome)
    (writeOk metaOk : Bool) (limit : Option Nat) (resume : Bool) (st : St) :
    Except St (RunResult × St) :=
  let all_tracks := fetch_all_tracks m
  if all_tracks.isEmpty then .ok (.noTracks, st)
  else
    let all_tracks := match limit with
      | some l => if l = 0 then all_tracks else all_tracks.take l
      | none => all_tracks
    let start_from := if resume ∧ st.history ≠ .absent then st.downloaded_ids.length else 0
    let new_tracks := all_tracks.filter fun t => decide (t.id.getD "" ∉ st.downloaded_ids)
    if new_tracks.isEmpty then .ok (.allDone, st)
    else
      match download_batch net writeOk metaOk new_tracks 0 st with
      | .ok ((successful, failed), st1) => .ok (.completed successful failed, st1)
      | .error s => .error s

/-- run: the outer try/except catches any exception escaping the body. -/
def run (m : ManifestOutcome) (net : Track → NetOutcome)
    (writeOk metaOk : Bool) (limit : Option Nat) (resume : Bool) (st : St) :
    RunResult × St :=
  match run_body m net writeOk metaOk limit resume st with
  | .ok r => r
  | .error s => (.errorCaught, s)

/-! Helper lemmas about the filesystem primitives. -/

theorem fsGet_fsSet_self (fs : List (String × Nat)) (p : String) (n : Nat) :
    fsGet (fsSet fs p n) p = some n := by
  simp [fsGet, fsSet, List.find?]

theorem fsGet_fsSet_ne (fs : List (String × Nat)) (p q : String) (n : Nat)
    (h : q ≠ p) : fsGet (fsSet fs p n) q = fsGet fs q := by
  unfold fsGet fsSet
  rw [List.find?_cons_of_neg _ (by simpa using Ne.symm h)]
  congr 1
  induction fs with
  | nil => rfl
  | cons r rs ih =>
    by_cases hr : r.1 = p
    · rw [List.filter_cons_of_neg (by simpa using hr),
        List.find?_cons_of_neg _ (by simp [hr, h.symm])]
      exact ih
    · rw [List.filter_cons_of_pos (by simpa using hr)]
      by_cases hq : r.1 = q
      · rw [List.find?_cons_of_pos _ (by simpa using hq),
          List.find?_cons_of_pos _ (by simpa using hq)]
      · rw [List.find?_cons_of_neg _ (by simpa using hq),
          List.find?_cons_of_neg _ (by simpa using hq)]
        exact ih

theorem fsGet_fsDel_self (fs : List (String × Nat)) (p : String) :
    fsGet (fsDel fs p) p = none := by
  unfold fsGet fsDel
  rw [List.find?_eq_none.mpr]
  · rfl
  · intro q hq
    have := (List.mem_filter.mp hq).2
    simpa using this

/-! Helper lemmas about the completed-set insertion and persistence. -/

theorem mem_addId_self (l : List String) (i : String) : i ∈ addId l i := by
  unfold addId
  split
  · assumption
  · simp

theorem mem_addId_of_mem (l : List String) (i a : String) (h : a ∈ l) :
    a ∈ addId l i := by
  unfold addId
  split
  · exact h
  · simp [h]

theorem save_downloaded_id_eq (writeOk : Bool) (st : St) (i : String) :
    save_downloaded_id writeOk st i =
      { st with downloaded_ids := addId st.downloaded_ids i,
                history := if writeOk then .json (some (addId st.downloaded_ids i))
                           else st.history } := by
  cases writeOk <;> simp [save_downloaded_id, save_downloaded_id_body]

@[simp] theorem save_downloaded_id_downloaded_ids (writeOk : Bool) (st : St) (i : String) :
    (save_downloaded_id writeOk st i).downloaded_ids = addId st.downloaded_ids i := by
  cases writeOk <;> simp [save_downloaded_id, save_downloaded_id_body]

@[simp] theorem save_downloaded_id_files (writeOk : Bool) (st : St) (i : String) :
    (save_downloaded_id writeOk st i).files = st.files := by
  cases writeOk <;> simp [save_downloaded_id, save_downloaded_id_body]

@[simp] theorem save_downloaded_id_netCalls (writeOk : Bool) (st : St) (i : String) :
    (save_downloaded_id writeOk st i).netCalls = st.netCalls := by
  cases writeOk <;> simp [save_downloaded_id, save_downloaded_id_body]

@[simp] theorem save_track_metadata_downloaded_ids (metaOk : Bool) (st : St) (fp : String) :
    (save_track_metadata metaOk st fp).downloaded_ids = st.downloaded_ids := by
  cases metaOk <;> simp [save_track_metadata]

@[simp] theorem save_track_metadata_netCalls (metaOk : Bool) (st : St) (fp : String) :
    (save_track_metadata metaOk st fp).netCalls = st.netCalls := by
  cases metaOk <;> simp [save_track_metadata]

@[simp] theorem save_track_metadata_history (metaOk : Bool) (st : St) (fp : String) :
    (save_track_metadata metaOk st fp).history = st.history := by
  cases metaOk <;> simp [save_track_metadata]

theorem save_track_metadata_files (metaOk : Bool) (st : St) (fp : String) :
    (save_track_metadata metaOk st fp).files =
      if metaOk then fsSet st.files (metadata_path fp) 1 else st.files := by
  cases metaOk <;> simp [save_track_metadata]

theorem fsExists_fsSet_self (fs : List (String × Nat)) (p : String) (n : Nat) :
    fsExists (fsSet fs p n) p = true := by
  simp [fsExists, fsGet_fsSet_self]

theorem fsSize_fsSet_self (fs : List (String × Nat)) (p : String) (n : Nat) :
    fsSize (fsSet fs p n) p = n := by
  simp [fsSize, fsGet_fsSet_self]

theorem fsDel_fsSet (fs : List (String × Nat)) (p : String) (n : Nat) :
    fsDel (fsSet fs p n) p = fsDel fs p := by
  simp only [fsDel, fsSet, List.filter_cons, decide_not]
  simp [List.filter_filter]

/-! Case analysis of download_track: every execution falls into exactly one
of the source branches (missing id, membership skip, existing-file skip,
and the four network outcomes), with the explicit result state of each. -/

theorem download_track_cases (net : Track → NetOutcome) (writeOk metaOk : Bool)
    (st : St) (track : Track) :
    (track.id.getD "" = "" ∧
      download_track net writeOk metaOk st track = .ok (false, st)) ∨
    (track.id.getD "" ≠ "" ∧ track.id.getD "" ∈ st.downloaded_ids ∧
      download_track net writeOk metaOk st track = .ok (true, st)) ∨
    (track.id.getD "" ≠ "" ∧ track.id.getD "" ∉ st.downloaded_ids ∧
      fsExists st.files (track_filepath track) = true ∧
      download_track net writeOk metaOk st track =
        .ok (true, save_downloaded_id writeOk st (track.id.getD ""))) ∨
    (track.id.getD "" ≠ "" ∧ track.id.getD "" ∉ st.downloaded_ids ∧
      fsExists st.files (track_filepath track) = false ∧
      ((net track = .raiseBeforeOpen ∧
        download_track net writeOk metaOk st track =
          .ok (false, { st with netCalls := st.netCalls ++ [track.id.getD ""] })) ∨
       (∃ n, net track = .raiseMidWrite n ∧
        download_track net writeOk metaOk st track =
          .ok (false, { st with
            files := fsSet st.files (track_filepath track) n,
            netCalls := st.netCalls ++ [track.id.getD ""] })) ∨
       (∃ n, net track = .content n ∧ 0 < n ∧
        download_track net writeOk metaOk st track =
          .ok (true, save_downloaded_id writeOk
            (save_track_metadata metaOk
              { st with files := fsSet st.files (track_filepath track) n,
                        netCalls := st.netCalls ++ [track.id.getD ""] }
              (track_filepath track)) (track.id.getD ""))) ∨
       (net track = .content 0 ∧
        download_track net writeOk metaOk st track =
          .ok (false, { st with
            files := fsDel st.files (track_filepath track),
            netCalls := st.netCalls ++ [track.id.getD ""] })))) := by
  by_cases h1 : track.id.getD "" = ""
  · exact Or.inl ⟨h1, by unfold download_track download_track_body; simp [h1]⟩
  · by_cases h2 : track.id.getD "" ∈ st.downloaded_ids
    · exact Or.inr (Or.inl ⟨h1, h2,
        by unfold download_track download_track_body; simp [h1, h2]⟩)
    · by_cases h3 : fsExists st.files (track_filepath track) = true
      · exact Or.inr (Or.inr (Or.inl ⟨h1, h2, h3,
          by unfold download_track download_track_body; simp [h1, h2, h3]⟩))
      · have h3f : fsExists st.files (track_filepath track) = false := by simpa using h3
        refine Or.inr (Or.inr (Or.inr ⟨h1, h2, h3f, ?_⟩))
        cases hnet : net track with
        | raiseBeforeOpen =>
          exact Or.inl ⟨rfl,
            by unfold download_track download_track_body; simp [h1, h2, h3f, hnet]⟩
        | raiseMidWrite n =>
          exact Or.inr (Or.inl ⟨n, rfl,
            by unfold download_track download_track_body; simp [h1, h2, h3f, hnet]⟩)
        | content n =>
          by_cases hn : 0 < n
          · exact Or.inr (Or.inr (Or.inl ⟨n, rfl, hn,
              by unfold download_track download_track_body
                 simp [h1, h2, h3f, hnet, fsExists_fsSet_self, fsSize_fsSet_self, hn]⟩))
          · have hn0 : n = 0 := Nat.eq_zero_of_not_pos hn
            subst hn0
            exact Or.inr (Or.inr (Or.inr ⟨rfl,
              by unfold download_track download_track_body
                 simp [h1, h2, h3f, hnet, fsExists_fsSet_self, fsSize_fsSet_self,
                   fsDel_fsSet]⟩))

/-! A track whose id is already in the completed-set keeps the set
membership and adds no network call, whatever download_track does. -/

theorem download_track_count (net : Track → NetOutcome) (writeOk metaOk : Bool)
    (st : St) (track : Track) (tid : String) (h : tid ∈ st.downloaded_ids) :
    ∃ b st1, download_track net writeOk metaOk st track = .ok (b, st1) ∧
      List.count tid st1.netCalls = List.count tid st.netCalls ∧
      tid ∈ st1.downloaded_ids := by
  have happ : ∀ i, i ∉ st.downloaded_ids →
      List.count tid (st.netCalls ++ [i]) = List.count tid st.netCalls := by
    intro i hi
    have hne : tid ≠ i := fun he => hi (he ▸ h)
    have h0 : List.count tid [i] = 0 := List.count_eq_zero.mpr (by simp [hne])
    rw [List.count_append, h0, Nat.add_zero]
  rcases download_track_cases net writeOk metaOk st track with
    ⟨h1, he⟩ | ⟨h1, h2, he⟩ | ⟨h1, h2, h3, he⟩ |
    ⟨h1, h2, h3, ⟨hnet, he⟩ | ⟨n, hnet, he⟩ | ⟨n, hnet, hn, he⟩ | ⟨hnet, he⟩⟩
  · exact ⟨false, st, he, rfl, h⟩
  · exact ⟨true, st, he, rfl, h⟩
  · exact ⟨true, _, he, by simp, by simpa using mem_addId_of_mem _ _ _ h⟩
  · exact ⟨false, _, he, happ _ h2, h⟩
  · exact ⟨false, _, he, happ _ h2, h⟩
  · exact ⟨true, _, he, by simpa using happ _ h2,
      by simpa using mem_addId_of_mem _ _ _ h⟩
  · exact ⟨false, _, he, happ _ h2, h⟩

theorem download_batch_go_count (net : Track → NetOutcome) (writeOk metaOk : Bool)
    (tid : String) (ts : List Track) :
    ∀ (st : St) (s f : Nat), tid ∈ st.downloaded_ids →
    ∃ c st1, download_batch_go net writeOk metaOk ts st s f = .ok (c, st1) ∧
      List.count tid st1.netCalls = List.count tid st.netCalls ∧
      tid ∈ st1.downloaded_ids := by
  induction ts with
  | nil => exact fun st s f h => ⟨(s, f), st, rfl, rfl, h⟩
  | cons t ts ih =>
    intro st s f h
    obtain ⟨b, st1, he, hc, hm⟩ := download_track_count net writeOk metaOk st t tid h
    cases b with
    | true =>
      obtain ⟨c, st2, he2, hc2, hm2⟩ := ih st1 (s + 1) f hm
      exact ⟨c, st2, by simp only [download_batch_go, he]; exact he2,
        by rw [hc2, hc], hm2⟩
    | false =>
      obtain ⟨c, st2, he2, hc2, hm2⟩ := ih st1 s (f + 1) hm
      exact ⟨c, st2, by simp only [download_batch_go, he]; exact he2,
        by rw [hc2, hc], hm2⟩

/-! Concrete inputs used by the counterexamples and witnesses below. -/

/-- Network oracle whose every retrieval raises before the file is opened. -/
def netFailAll : Track → NetOutcome := fun _ => .raiseBeforeOpen

/-- Network oracle whose every retrieval completes with a zero-byte body. -/
def netEmptyAll : Track → NetOutcome := fun _ => .content 0

/-- Network oracle whose every retrieval raises just after the artifact
file is created, before any byte is written to it. -/
def netAbortAll : Track → NetOutcome := fun _ => .raiseMidWrite 0

/-- A concrete manifest item: id a1, name Song A, genre calm; its artifact
path is youtube_music/calm/Song A.mp3. -/
def trkA : Track := ⟨some "a1", some "Song A", some "Unknown", some "calm", none⟩

/-- A concrete manifest item without any tag. -/
def trkNoTags : Track := ⟨some "a1", none, none, none, none⟩

/-- A state whose completed-set holds a1 but whose filesystem is empty:
a stale history entry without its artifact. -/
def stHist : St := ⟨["a1"], [], .json (some ["a1"]), []⟩

/-- A state whose filesystem holds a zero-byte artifact for trkA while
the completed-set is empty. -/
def stZero : St := ⟨[], [("youtube_music/calm/Song A.mp3", 0)], .json (some []), []⟩

/-- The empty starting state. -/
def stEmpty : St := ⟨[], [], .absent, []⟩

/-- A state whose filesystem holds a five-byte artifact for trkA while
the completed-set is empty. -/
def stFileOnly : St := ⟨[], [("youtube_music/calm/Song A.mp3", 5)], .json (some []), []⟩

/-- The state stFileOnly after download_track marks trkA as done. -/
def stFileOnlyAfter : St :=
  ⟨["a1"], [("youtube_music/calm/Song A.mp3", 5)], .json (some ["a1"]), []⟩

/-- The state stEmpty after a retrieval of trkA that raised right after
creating the artifact file: the zero-byte file is left behind. -/
def stMidAfter : St := ⟨[], [("youtube_music/calm/Song A.mp3", 0)], .absent, ["a1"]⟩

/-- The state stEmpty after a retrieval of trkA whose body was empty: the
zero-byte file was written, verified, and deleted again. -/
def stDelAfter : St := ⟨[], [], .absent, ["a1"]⟩

/-- A state whose completed-set holds a1 and whose filesystem holds the
corresponding five-byte artifact. -/
def stDone : St := ⟨["a1"], [("youtube_music/calm/Song A.mp3", 5)], .json (some ["a1"]), []⟩

/-! Claim C1. -/

/-- Claim C1 (counterexample): with a1 in the completed-set but no artifact
file on disk at its path, download_track does NOT retrieve the item again:
it returns true with the state entirely unchanged (no network call is
recorded), so the item is treated as done on set membership alone, contrary
to the claim. -/
theorem stale_history_entry_still_skipped :
    fsExists stHist.files (track_filepath trkA) = false ∧
    trkA.id.getD "" ∈ stHist.downloaded_ids ∧
    download_track netFailAll true true stHist trkA = .ok (true, stHist) :=
  ⟨rfl, by decide, by decide⟩

/-- Claim C1 (amended): for every item with a non-empty identifier that is
already in the completed-set, download_track skips it on set membership
alone, returning true with the state unchanged, whether or not the artifact
file exists on disk. -/
theorem download_track_skips_on_membership_alone (net : Track → NetOutcome)
    (writeOk metaOk : Bool) (st : St) (track : Track)
    (h1 : track.id.getD "" ≠ "") (h2 : track.id.getD "" ∈ st.downloaded_ids) :
    download_track net writeOk metaOk st track = .ok (true, st) := by
  rcases download_track_cases net writeOk metaOk st track with
    ⟨ha, _⟩ | ⟨_, _, hbr⟩ | ⟨_, hb, _, _⟩ | ⟨_, hb, _, _⟩
  · exact absurd ha h1
  · exact hbr
  · exact absurd h2 hb
  · exact absurd h2 hb

/-- Witness for the amended C1 theorem at concrete inputs. -/
theorem download_track_skips_on_membership_alone_witness :
    download_track netFailAll true true stHist trkA = .ok (true, stHist) :=
  download_track_skips_on_membership_alone netFailAll true true stHist trkA
    (by decide) (by decide)

/-! Claim C2. -/

/-- Claim C2 (counterexample): starting from a state whose filesystem holds
a zero-byte artifact for trkA, download_track inserts a1 into the
completed-set although the artifact is empty at the moment of insertion,
contradicting the only-if direction of the claimed invariant. -/
theorem zero_byte_existing_file_id_added :
    fsGet stZero.files (track_filepath trkA) = some 0 ∧
    download_track netFailAll true true stZero trkA =
      .ok (true, { downloaded_ids := ["a1"],
                   files := [("youtube_music/calm/Song A.mp3", 0)],
                   history := .json (some ["a1"]), netCalls := [] }) :=
  ⟨by decide, by decide⟩

/-- Claim C2 (amended): whenever download_track inserts a new identifier
into the completed-set, the corresponding artifact file exists at the
moment of insertion; when the insertion happens on the fresh-download path
(the file was not on disk before the call) the file is also non-empty, but
the pre-existing-file path inserts the id whenever the file exists, even
when it is zero-byte. -/
theorem id_added_only_if_file_exists (net : Track → NetOutcome)
    (writeOk metaOk : Bool) (st : St) (track : Track) (b : Bool) (st1 : St)
    (he : download_track net writeOk metaOk st track = .ok (b, st1))
    (hnotin : track.id.getD "" ∉ st.downloaded_ids)
    (hin : track.id.getD "" ∈ st1.downloaded_ids) :
    ∃ n, fsGet st1.files (track_filepath track) = some n ∧
      (fsGet st.files (track_filepath track) = none → 0 < n) := by
  rcases download_track_cases net writeOk metaOk st track with
    ⟨h1, hbr⟩ | ⟨h1, h2, hbr⟩ | ⟨h1, h2, h3, hbr⟩ |
    ⟨h1, h2, h3, ⟨hnet, hbr⟩ | ⟨n, hnet, hbr⟩ | ⟨n, hnet, hn, hbr⟩ | ⟨hnet, hbr⟩⟩
  · rw [he] at hbr
    simp only [Except.ok.injEq, Prod.mk.injEq] at hbr
    exact absurd (hbr.2 ▸ hin) hnotin
  · rw [he] at hbr
    simp only [Except.ok.injEq, Prod.mk.injEq] at hbr
    exact absurd (hbr.2 ▸ hin) hnotin
  · rw [he] at hbr
    simp only [Except.ok.injEq, Prod.mk.injEq] at hbr
    obtain ⟨-, hst⟩ := hbr
    subst hst
    unfold fsExists at h3
    obtain ⟨m, hm⟩ := Option.isSome_iff_exists.mp h3
    refine ⟨m, by simpa using hm, fun hc => ?_⟩
    rw [hc] at hm
    simp at hm
  · rw [he] at hbr
    simp only [Except.ok.injEq, Prod.mk.injEq] at hbr
    obtain ⟨-, hst⟩ := hbr
    subst hst
    exact absurd hin hnotin
  · rw [he] at hbr
    simp only [Except.ok.injEq, Prod.mk.injEq] at hbr
    obtain ⟨-, hst⟩ := hbr
    subst hst
    exact absurd hin hnotin
  · rw [he] at hbr
    simp only [Except.ok.injEq, Prod.mk.injEq] at hbr
    obtain ⟨-, hst⟩ := hbr
    subst hst
    cases metaOk with
    | false =>
      refine ⟨n, ?_, fun _ => hn⟩
      rw [save_downloaded_id_files, save_track_metadata_files]
      simpa using fsGet_fsSet_self st.files (track_filepath track) n
    | true =>
      by_cases hmp : metadata_path (track_filepath track) = track_filepath track
      · refine ⟨1, ?_, fun _ => Nat.one_pos⟩
        rw [save_downloaded_id_files, save_track_metadata_files]
        show fsGet (fsSet (fsSet st.files (track_filepath track) n)
          (metadata_path (track_filepath track)) 1) (track_filepath track) = some 1
        rw [hmp]
        exact fsGet_fsSet_self _ _ 1
      · refine ⟨n, ?_, fun _ => hn⟩
        rw [save_downloaded_id_files, save_track_metadata_files]
        show fsGet (fsSet (fsSet st.files (track_filepath track) n)
          (metadata_path (track_filepath track)) 1) (track_filepath track) = some n
        rw [fsGet_fsSet_ne _ _ _ _ fun h => hmp h.symm]
        exact fsGet_fsSet_self _ _ n
  · rw [he] at hbr
    simp only [Except.ok.injEq, Prod.mk.injEq] at hbr
    obtain ⟨-, hst⟩ := hbr
    subst hst
    exact absurd hin hnotin

/-- Witness for the amended C2 theorem at concrete inputs. -/
theorem id_added_only_if_file_exists_witness :
    ∃ n, fsGet stFileOnlyAfter.files (track_filepath trkA) = some n ∧
      (fsGet stFileOnly.files (track_filepath trkA) = none → 0 < n) :=
  id_added_only_if_file_exists netFailAll true true stFileOnly trkA true
    stFileOnlyAfter (by decide) (by decide) (by decide)

/-! Claim C3. -/

/-- Claim C3 (counterexample): a retrieval of trkA that raises right after
the artifact file is created returns false while leaving a zero-byte
artifact file on disk, contradicting the claim. -/
theorem zero_byte_file_left_on_midwrite_exception :
    download_track netAbortAll true true stEmpty trkA = .ok (false, stMidAfter) ∧
    fsGet stMidAfter.files (track_filepath trkA) = some 0 :=
  ⟨by decide, by decide⟩

/-- Claim C3 (amended): when the download itself completes without raising
(the network outcome is a body of n bytes) and download_track still returns
false for an item with a non-empty identifier, no artifact file for that
item remains on disk: the zero-byte result was deleted before returning.
An exception raised mid-download can still leave a zero-byte partial file. -/
theorem no_zero_byte_file_on_verified_failure (net : Track → NetOutcome)
    (writeOk metaOk : Bool) (st : St) (track : Track) (st1 : St) (n : Nat)
    (hid : track.id.getD "" ≠ "")
    (hnet : net track = .content n)
    (he : download_track net writeOk metaOk st track = .ok (false, st1)) :
    fsGet st1.files (track_filepath track) = none := by
  rcases download_track_cases net writeOk metaOk st track with
    ⟨h1, hbr⟩ | ⟨h1, h2, hbr⟩ | ⟨h1, h2, h3, hbr⟩ |
    ⟨h1, h2, h3, ⟨hb, hbr⟩ | ⟨m, hb, hbr⟩ | ⟨m, hb, hm, hbr⟩ | ⟨hb, hbr⟩⟩
  · exact absurd h1 hid
  · rw [he] at hbr
    simp at hbr
  · rw [he] at hbr
    simp at hbr
  · rw [hnet] at hb
    cases hb
  · rw [hnet] at hb
    cases hb
  · rw [he] at hbr
    simp at hbr
  · rw [he] at hbr
    simp only [Except.ok.injEq, Prod.mk.injEq] at hbr
    obtain ⟨-, hst⟩ := hbr
    subst hst
    exact fsGet_fsDel_self st.files (track_filepath track)

/-- Witness for the amended C3 theorem at concrete inputs. -/
theorem no_zero_byte_file_on_verified_failure_witness :
    fsGet stDelAfter.files (track_filepath trkA) = none :=
  no_zero_byte_file_on_verified_failure netEmptyAll true true stEmpty trkA
    stDelAfter 0 (by decide) rfl (by decide)

/-! Claim C4. -/

/-- Claim C4: download_track is total at its boundary: whatever the network
outcome, the history-write outcome and the starting state, every failure
inside the body is caught and converted into a normal boolean return; the
result is never on the error side of Except. -/
theorem download_track_never_raises (net : Track → NetOutcome)
    (writeOk metaOk : Bool) (st : St) (track : Track) :
    ∃ b st1, download_track net writeOk metaOk st track = .ok (b, st1) := by
  cases h : download_track_body net writeOk metaOk st track with
  | ok r => exact ⟨r.1, r.2, by unfold download_track; rw [h]⟩
  | error s => exact ⟨false, s, by unfold download_track; rw [h]⟩

/-! Claim C5. -/

/-- Claim C5: load_downloaded_ids returns the parsed identifier list when
the history file is readable and well-formed (an object missing the
downloaded_ids key parses to the empty set), and returns the empty set when
the file is absent or unparseable; being a total function, it never
propagates the error. -/
theorem load_downloaded_ids_spec :
    (∀ ids, load_downloaded_ids (.json (some ids)) = ids) ∧
    load_downloaded_ids (.json none) = [] ∧
    load_downloaded_ids .corrupt = [] ∧
    load_downloaded_ids .absent = [] :=
  ⟨fun _ => rfl, rfl, rfl, rfl⟩

/-! Claim C6. -/

/-- Claim C6: fetch_all_tracks returns the manifest items on success and
the empty sequence on any failure rather than raising, and run treats the
empty result as nothing to do, returning the noTracks outcome with the
state untouched instead of a fatal error. -/
theorem fetch_failure_yields_empty_and_clean_exit :
    fetch_all_tracks .failure = [] ∧
    (∀ ts, fetch_all_tracks (.success (some ts)) = ts) ∧
    (∀ (net : Track → NetOutcome) (writeOk metaOk : Bool)
      (limit : Option Nat) (resume : Bool) (st : St),
      run .failure net writeOk metaOk limit resume st = (.noTracks, st)) :=
  ⟨rfl, fun _ => rfl, fun _ _ _ _ _ _ => rfl⟩

/-! Claim C7. -/

/-- Claim C7: folder resolution is total and follows the genre-then-mood
fallback: with both tags absent or empty the artifact goes to the fixed
uncategorized bucket; with a non-empty genre the folder is derived from the
genre; with an empty genre and non-empty mood it is derived from the mood. -/
theorem category_resolution_total (track : Track) :
    (track.genre.getD "" = "" → track.mood.getD "" = "" →
      create_category_folder (resolve_category track) = "youtube_music/uncategorized") ∧
    (track.genre.getD "" ≠ "" →
      create_category_folder (resolve_category track) =
        create_category_folder (track.genre.getD "")) ∧
    (track.genre.getD "" = "" → track.mood.getD "" ≠ "" →
      create_category_folder (resolve_category track) =
        create_category_folder (track.mood.getD "")) := by
  refine ⟨fun hg hm => ?_, fun hg => ?_, fun hg hm => ?_⟩
  · have h1 : resolve_category track = "uncategorized" := by
      simp [resolve_category, hg, hm]
    rw [h1]
    rfl
  · have h1 : resolve_category track = track.genre.getD "" := by
      simp [resolve_category, hg]
    rw [h1]
  · have h1 : resolve_category track = track.mood.getD "" := by
      simp [resolve_category, hg, hm]
    rw [h1]

/-- Witness for the C7 theorem at a concrete item without tags. -/
theorem category_resolution_total_witness :
    create_category_folder (resolve_category trkNoTags) = "youtube_music/uncategorized" :=
  (category_resolution_total trkNoTags).1 rfl rfl

/-! Claim C8. -/

/-- Claim C8: for every item of the batch whose identifier is already in
the completed-set (and whose artifact file exists on disk), download_batch
issues zero network calls for that item: the count of its id in the
network-call trace does not change. -/
theorem completed_items_no_network_calls (net : Track → NetOutcome)
    (writeOk metaOk : Bool) (tracks : List Track) (start_from : Nat)
    (st : St) (t : Track)
    (h1 : t ∈ tracks) (h2 : t.id.getD "" ∈ st.downloaded_ids)
    (h3 : fsExists st.files (track_filepath t) = true) :
    ∃ counts st1,
      download_batch net writeOk metaOk tracks start_from st = .ok (counts, st1) ∧
      List.count (t.id.getD "") st1.netCalls =
        List.count (t.id.getD "") st.netCalls := by
  obtain ⟨c, st1, he, hc, -⟩ := download_batch_go_count net writeOk metaOk
    (t.id.getD "") (if 0 < start_from then tracks.drop start_from else tracks)
    st 0 0 h2
  exact ⟨c, st1, by unfold download_batch; exact he, hc⟩

/-- Witness for the C8 theorem at concrete inputs. -/
theorem completed_items_no_network_calls_witness :
    ∃ counts st1,
      download_batch netFailAll true true [trkA] 0 stDone = .ok (counts, st1) ∧
      List.count (trkA.id.getD "") st1.netCalls =
        List.count (trkA.id.getD "") stDone.netCalls :=
  completed_items_no_network_calls netFailAll true true [trkA] 0 stDone trkA
    (by decide) (by decide) (by decide)

/-! Claim C9. -/

/-- Claim C9: run behaves identically with resume set and unset, for every
manifest, network oracle, limit and starting state: the resume flag only
computes a start offset that is never passed to download_batch, so the only
filter applied is completed-set membership in both cases. -/
theorem run_resume_irrelevant (m : ManifestOutcome) (net : Track → NetOutcome)
    (writeOk metaOk : Bool) (limit : Option Nat) (st : St) :
    run m net writeOk metaOk limit true st =
      run m net writeOk metaOk limit false st := rfl

/-! Claim C10. -/

/-- Claim C10: after save_downloaded_id the identifier is in the in-memory
completed-set whatever the outcome of the history write, because the
insertion happens before the persistence attempt; when the write fails the
error is swallowed and the persisted history file is left unchanged, so the
in-memory set can be a strict superset of the persisted one. -/
theorem save_downloaded_id_inserts_despite_write_failure :
    ∀ (writeOk : Bool) (st : St) (tid : String),
      tid ∈ (save_downloaded_id writeOk st tid).downloaded_ids ∧
      (save_downloaded_id writeOk st tid).downloaded_ids =
        addId st.downloaded_ids tid ∧
      (save_downloaded_id false st tid).history = st.history := by
  intro writeOk st tid
  refine ⟨?_, by simp, ?_⟩
  · simpa using mem_addId_self st.downloaded_ids tid
  · simp [save_downloaded_id_eq]

end AudioLib
